import Mathlib

/-!
Verification of the content-normalizer and request-transformation layer of the
claude-code-router repository (jerryzhao173985/ccr).

The development shallowly embeds the JavaScript/TypeScript source:

* `fixMessageContent` and the per-message map over `req.body.messages`
  (the normalizer "pass A") from `src/index.ts`, preHandler hook;
* `convertMessagesToResponsesFormat` (the strict-shape projection, normalizer
  "pass B") and `transformRequestIn` with its process-global conversation-state
  map, from `custom-responses-api-v2.js`.

JavaScript values are modelled by the inductive `JVal`.  `vNull` and `vUndefined`
model null and undefined; the source always tests the two together
(`x === null || x === undefined`), but they stringify differently in template
literals, so both are kept.  Objects are modelled as ordered association lists
with unique keys, matching JS property order semantics: overwriting an
existing key keeps its position, a fresh key is appended.  Numbers are
modelled as integers: no claim below exercises a non-integral number.
Exceptions (TypeError on property access of null/undefined, calling .map on a
non-function) are modelled with `Except String`.
-/

set_option maxHeartbeats 1000000

inductive JVal where
  | vNull
  | vUndefined
  | vStr (s : String)
  | vNum (n : Int)
  | vBool (b : Bool)
  | vArr (xs : List JVal)
  | vObj (fields : List (String × JVal))

namespace JVal

/-- True exactly for null and undefined (the source always checks
`x === null || x === undefined`). -/
def isNullish : JVal → Bool
  | vNull => true
  | vUndefined => true
  | _ => false

/-- JS truthiness: null, undefined, false, 0 and the empty string are falsy;
every array and object (even empty) is truthy. -/
def jsTruthy : JVal → Bool
  | vNull => false
  | vUndefined => false
  | vStr s => !(s = "")
  | vNum n => !(n = 0)
  | vBool b => b
  | vArr _ => true
  | vObj _ => true

/-- Strict equality of a value against a string literal (`v === "lit"`). -/
def jsStrEq (v : JVal) (lit : String) : Bool :=
  match v with
  | vStr s => s = lit
  | _ => false

/-- Models `Array.isArray`. -/
def isArr : JVal → Bool
  | vArr _ => true
  | _ => false

/-- Models the guard `typeof v === "object" && v !== null`: objects and
arrays qualify (typeof null is "object" but the source excludes it). -/
def isObjLike : JVal → Bool
  | vObj _ => true
  | vArr _ => true
  | _ => false

end JVal

open JVal

/-- First-match lookup in an object field list (JS objects have unique keys,
so first match is the match). -/
def getKey : List (String × JVal) → String → Option JVal
  | [], _ => none
  | (k, v) :: fs, key => if k = key then some v else getKey fs key

/-- Property update, JS-style: an existing key keeps its position, a fresh
key is appended at the end.  This is both the semantics of assignment
(`obj.k = v`) and of spread-with-override  (`... obj` followed by `k : v`). -/
def setKey : List (String × JVal) → String → JVal → List (String × JVal)
  | [], key, v => [(key, v)]
  | (k, v') :: fs, key, v =>
    if k = key then (key, v) :: fs else (k, v') :: setKey fs key v

/-- Own enumerable properties of a value, as used by object spread:
objects give their fields, arrays and strings give index-keyed entries,
primitives and null/undefined give nothing. -/
def spreadFields : JVal → List (String × JVal)
  | .vObj fs => fs
  | .vArr xs => (xs.enum.map fun p => (toString p.1, p.2))
  | .vStr s => (s.toList.enum.map fun p => (toString p.1, JVal.vStr (String.singleton p.2)))
  | _ => []

/-- Total property read.  On objects it is the field (or undefined when the
field is missing); on any other non-nullish value the properties the source
reads (role, content, text, type, name, id, ...) are all undefined.
Reading a property of null/undefined throws; callers that can receive a
nullish value guard with `isNullish` and produce `Except.error` themselves. -/
def jsGetD : JVal → String → JVal
  | .vObj fs, key => (getKey fs key).getD .vUndefined
  | _, _ => .vUndefined

/-- Property write / spread-with-override: `... v` then `key : x` (equally,
in-place assignment `v.key = x`).  On arrays and strings the source only ever
does this through object spread, which produces a plain object from the
enumerable properties. -/
def jsSet (v : JVal) (key : String) (x : JVal) : JVal :=
  .vObj (setKey (spreadFields v) key x)

mutual

/-- JS ToString for the fragment the source exercises in template literals:
null and undefined print as "null"/"undefined", arrays join their elements
with commas (nullish elements print as empty), plain objects print as
"[object Object]". -/
def jsToString : JVal → String
  | .vNull => "null"
  | .vUndefined => "undefined"
  | .vStr s => s
  | .vNum n => toString n
  | .vBool b => if b then "true" else "false"
  | .vObj _ => "[object Object]"
  | .vArr xs => jsArrToString xs

/-- Models `Array.prototype.toString` (elements comma-joined, nullish as empty). -/
def jsArrToString : List JVal → String
  | [] => ""
  | [x] => if isNullish x then "" else jsToString x
  | x :: y :: xs =>
    (if isNullish x then "" else jsToString x) ++ "," ++ jsArrToString (y :: xs)

end

/-- One element of `Array.prototype.join`: nullish elements render empty. -/
def jsJoinElem (x : JVal) : String :=
  if isNullish x then "" else jsToString x

/-- Models `Array.prototype.join(sep)`. -/
def jsJoinWith (sep : String) : List JVal → String
  | [] => ""
  | [x] => jsJoinElem x
  | x :: y :: xs => jsJoinElem x ++ sep ++ jsJoinWith sep (y :: xs)

/-- Effectful map in source order: the JS `Array.prototype.map` evaluates the
callback left to right and the first thrown exception propagates. -/
def mapME {α β : Type} (f : α → Except String β) : List α → Except String (List β)
  | [] => .ok []
  | x :: xs =>
    match f x with
    | .error e => .error e
    | .ok y =>
      match mapME f xs with
      | .error e => .error e
      | .ok ys => .ok (y :: ys)

/-- Elements of an array value (empty for non-arrays; used only under an
`Array.isArray` guard, mirroring the source). -/
def arrElems : JVal → List JVal
  | .vArr xs => xs
  | _ => []

/-- Stands in for the id string the source builds from `Date.now()` and
`Math.random()`.  Its exact value is unpredictable at run time and no claim
depends on it; all that matters below is that it is a non-empty (truthy)
string. -/
def freshToolId : String := "tool_generated_id"

/-- Per-element normalization of array-valued message content, from the
`Array.isArray(msg.content)` branch of `fixMessageContent`
(src/index.ts, preHandler hook):

* a nullish element becomes a text block with empty text;
* a `tool_use` block gets defaulted name, id and input;
* a `tool_result` block gets empty-string content when nullish, and a
  defaulted `tool_use_id`;
* any other object-like element with nullish `text` gets `text : ""`
  (returning immediately), else with nullish `content` (and a type that is
  not tool_use/tool_result) gets `content : ""`;
* non-object elements pass through unchanged. -/
def fixContentItem (item : JVal) : JVal :=
  if isNullish item then .vObj [("type", .vStr "text"), ("text", .vStr "")]
  else if isObjLike item then
    let ty := jsGetD item "type"
    if jsStrEq ty "tool_use" then
      let i1 := if jsTruthy (jsGetD item "name") then item
                else jsSet item "name" (.vStr "unknown_tool")
      let i2 := if jsTruthy (jsGetD i1 "id") then i1
                else jsSet i1 "id" (.vStr freshToolId)
      if isNullish (jsGetD i2 "input") then jsSet i2 "input" (.vObj []) else i2
    else if jsStrEq ty "tool_result" then
      let i1 := if isNullish (jsGetD item "content") then
                  jsSet item "content" (.vStr "") else item
      if jsTruthy (jsGetD i1 "tool_use_id") then i1
      else jsSet i1 "tool_use_id" (.vStr freshToolId)
    else if isNullish (jsGetD item "text") then jsSet item "text" (.vStr "")
    else if isNullish (jsGetD item "content") then
      if !(jsStrEq ty "tool_use") && !(jsStrEq ty "tool_result") then
        jsSet item "content" (.vStr "")
      else item
    else item
  else item

/-- The callback of `msg.tool_calls.map(tc => tc.function?.name || tc.name ||
"unknown")`.  Property access on a nullish element throws (the optional
chaining only guards the `.name` step, not `tc.function` itself). -/
def toolCallName (tc : JVal) : Except String JVal :=
  if isNullish tc then .error "TypeError: cannot read properties of null"
  else
    let fn := jsGetD tc "function"
    let v1 := if isNullish fn then JVal.vUndefined else jsGetD fn "name"
    if jsTruthy v1 then .ok v1
    else if jsTruthy (jsGetD tc "name") then .ok (jsGetD tc "name")
    else .ok (.vStr "unknown")

/-- The template literal
`[Executing N toolS: joined names]` (comma-joined) synthesized for a null-content
message that carries tool calls ("s" appended only when N > 1). -/
def executingText (names : List JVal) : String :=
  "[Executing " ++ toString names.length ++ " tool" ++
    (if names.length > 1 then "s" else "") ++ ": " ++
    jsJoinWith ", " names ++ "]"

/-- The per-message normalizer `fixMessageContent` of the preHandler hook in
src/index.ts (normalizer pass A), faithful to branch order:

1. tool-role messages (role "tool" or a truthy tool_call_id) with nullish
   content get content "";
2. messages whose tool_calls field is an array and whose content is nullish
   get the synthesized "[Executing N tool(s): ...]" text (throws on a nullish
   tool_calls element);
3. any other message with nullish content gets "" for role "user" and
   "[Continuing...]" otherwise;
4. array content is mapped element-wise through `fixContentItem` and then
   filtered of nullish elements;
5. everything else is returned unchanged.

Property access on a nullish message throws. -/
def fixMessageContent (msg : JVal) : Except String JVal :=
  if isNullish msg then .error "TypeError: cannot read properties of null"
  else
    let role := jsGetD msg "role"
    let content := jsGetD msg "content"
    if (jsStrEq role "tool" || jsTruthy (jsGetD msg "tool_call_id")) &&
        isNullish content then
      .ok (jsSet msg "content" (.vStr ""))
    else if isArr (jsGetD msg "tool_calls") && isNullish content then
      match mapME toolCallName (arrElems (jsGetD msg "tool_calls")) with
      | .error e => .error e
      | .ok names => .ok (jsSet msg "content" (.vStr (executingText names)))
    else if isNullish content then
      .ok (jsSet msg "content"
        (if jsStrEq role "user" then .vStr "" else .vStr "[Continuing...]"))
    else
      match content with
      | .vArr items =>
        .ok (jsSet msg "content"
          (.vArr ((items.map fixContentItem).filter (fun i => !(isNullish i)))))
      | _ => .ok msg

/-- Normalizer pass A over the whole messages array:
`req.body.messages.map((msg, i) => fixMessageContent(msg, path))`. -/
def passA : List JVal → Except String (List JVal) :=
  mapME fixMessageContent

/-- Block constructor used by the strict-shape projection:
an object with a type tag and a text field (in that order). -/
def mkBlock (ty : String) (t : JVal) : JVal :=
  .vObj [("type", .vStr ty), ("text", t)]

/-- Output message shape of the strict-shape projection: role first, then the
content block array, exactly as the object literal in the source builds it. -/
def mkMsg (role : JVal) (blocks : List JVal) : JVal :=
  .vObj [("role", role), ("content", .vArr blocks)]

/-- Semantic tag chosen per role: "output_text" for assistant messages and
"input_text" otherwise. -/
def typeFor (role : JVal) : String :=
  if jsStrEq role "assistant" then "output_text" else "input_text"

/-- One message of `convertMessagesToResponsesFormat`
(custom-responses-api-v2.js, normalizer pass B), faithful to branch order:

1. role "tool": a single input_text block
   "[Tool Result " + String(tool_call_id) + "]\n" + String(content)
   (template-literal stringification: null renders as the string "null");
   the emitted role is "user";
2. truthy tool_calls: one block whose text joins
   "[Tool: name (id)]" per call with newlines, prefixed by the stringified
   content when that is truthy (throws when tool_calls is not an array, when
   a call is nullish, or when a call has no function object - the source
   reads tc.function.name without optional chaining);
3. string content: one block with exactly that text;
4. array content: one block per element with text `c.text || c.content` or
   the empty string
   (the chosen value is kept as is, not stringified; a nullish element
   throws);
5. anything else: an empty block array. -/
def convertMsg (msg : JVal) : Except String JVal :=
  if isNullish msg then .error "TypeError: cannot read properties of null"
  else
    let role := jsGetD msg "role"
    let outRole := if jsStrEq role "tool" then JVal.vStr "user" else role
    if jsStrEq role "tool" then
      .ok (mkMsg outRole
        [mkBlock "input_text"
          (.vStr ("[Tool Result " ++ jsToString (jsGetD msg "tool_call_id")
            ++ "]\n" ++ jsToString (jsGetD msg "content")))])
    else if jsTruthy (jsGetD msg "tool_calls") then
      match jsGetD msg "tool_calls" with
      | .vArr tcs =>
        match mapME (fun tc =>
          if isNullish tc then
            .error "TypeError: cannot read properties of null"
          else
            let fn := jsGetD tc "function"
            if isNullish fn then
              .error "TypeError: cannot read properties of undefined"
            else
              .ok ("[Tool: " ++ jsToString (jsGetD fn "name") ++ " (" ++
                jsToString (jsGetD tc "id") ++ ")]")) tcs with
        | .error e => .error e
        | .ok parts =>
          let toolText := String.intercalate "\n" parts
          let c := jsGetD msg "content"
          let text := if jsTruthy c then jsToString c ++ "\n" ++ toolText
                      else toolText
          .ok (mkMsg outRole [mkBlock (typeFor role) (.vStr text)])
      | _ => .error "TypeError: msg.tool_calls.map is not a function"
    else
      match jsGetD msg "content" with
      | .vStr s => .ok (mkMsg outRole [mkBlock (typeFor role) (.vStr s)])
      | .vArr xs =>
        match mapME (fun c =>
          if isNullish c then
            .error "TypeError: cannot read properties of null"
          else
            let t := jsGetD c "text"
            let cc := jsGetD c "content"
            .ok (mkBlock (typeFor role)
              (if jsTruthy t then t else if jsTruthy cc then cc else .vStr ""))) xs with
        | .error e => .error e
        | .ok blocks => .ok (mkMsg outRole blocks)
      | _ => .ok (mkMsg outRole [])

/-- Normalizer pass B over a message array:
`messages.map(msg => ...)` in `convertMessagesToResponsesFormat`. -/
def passB : List JVal → Except String (List JVal) :=
  mapME convertMsg

/-! ### The stateful transformer (`transformRequestIn`)

`ResponsesApiV2ContinuousTransformer` stores its conversation state in
`global.__responsesApiV2State`, a process-wide singleton that survives
across requests; `transformRequestIn` reads and updates it.
The request is modelled as a structure over `JVal` fields.
`max_tokens` is modelled as an optional integer and `messages` as an optional
array: the source would accept arbitrary values there, but every claim below
instantiates them with a number / an array or leaves them absent.
On a thrown exception the JS map keeps any mutations already applied; the
model returns only the error, which is faithful for every success path (the
only paths the claims below evaluate). -/

structure Req where
  model : JVal
  messages : Option (List JVal)
  max_tokens : Option Int
  response_format : JVal
  stream : JVal

/-- One conversation state, as created and mutated by `transformRequestIn`. -/
structure ConvState where
  messages : List JVal
  model : JVal
  toolCalls : List JVal
  iterations : Nat
  maxTokens : Int
  isExecuting : Bool

/-- The `conversationStates` map of the process-global singleton
(a JS Map: insertion ordered, set-on-existing updates in place). -/
def GlobalState : Type := List (String × ConvState)

def getState : GlobalState → String → Option ConvState
  | [], _ => none
  | (k, st) :: g, key => if k = key then some st else getState g key

def setState : GlobalState → String → ConvState → GlobalState
  | [], key, st => [(key, st)]
  | (k, st') :: g, key, st =>
    if k = key then (key, st) :: g else (k, st') :: setState g key st

/-- Models `context?.conversationId || "default"`. -/
def cidOf : Option String → String
  | some s => if s = "" then "default" else s
  | none => "default"

/-- The fresh state literal of `transformRequestIn`:
messages [], model `request.model || "o3"`, no tool calls, zero iterations,
maxTokens `request.max_tokens || 100000`, not executing. -/
def freshState (r : Req) : ConvState :=
  { messages := []
    model := if jsTruthy r.model then r.model else .vStr "o3"
    toolCalls := []
    iterations := 0
    maxTokens := match r.max_tokens with
      | some n => if n ≠ 0 then n else 100000
      | none => 100000
    isExecuting := false }

/-- Substring test on character lists: does the list begin with the pattern. -/
def beginsWith : List Char → List Char → Bool
  | _, [] => true
  | [], _ :: _ => false
  | c :: cs, p :: ps => (c = p) && beginsWith cs ps

/-- Substring search (any suffix begins with the pattern). -/
def hasSub (pat : List Char) : List Char → Bool
  | [] => pat.isEmpty
  | c :: rest => beginsWith (c :: rest) pat || hasSub pat rest

/-- Models `String.prototype.includes`. -/
def strIncludes (s pat : String) : Bool :=
  hasSub pat.toList s.toList

/-- Models `isToolResultMessage(request)` from custom-responses-api-v2.js: false when
there are no messages or the last one is falsy; true when the last message has
role "tool"; otherwise looks for the literal markers "[Tool Result" /
"Tool call result:" in `lastMessage.content` (or "" when falsy; String.includes on a
string; Array.includes compares elements by strict equality; any other truthy
content value has no `includes` method and throws). -/
def isToolResultMessage (r : Req) : Except String Bool :=
  match r.messages with
  | none => .ok false
  | some ms =>
    match ms.getLast? with
    | none => .ok false
    | some l =>
      if !(jsTruthy l) then .ok false
      else if jsStrEq (jsGetD l "role") "tool" then .ok true
      else
        let c := jsGetD l "content"
        let c2 := if jsTruthy c then c else JVal.vStr ""
        match c2 with
        | .vStr s =>
          .ok (strIncludes s "[Tool Result" || strIncludes s "Tool call result:")
        | .vArr xs =>
          .ok ((xs.any fun x => jsStrEq x "[Tool Result") ||
               (xs.any fun x => jsStrEq x "Tool call result:"))
        | _ => .error "TypeError: content.includes is not a function"

/-- Models `calculateMaxTokens(state)` with the constructor-default options
(maxTokensLimit 100000): min(base + 2000 per stored tool call + 100 per
stored message, 100000), where base falls back to 15000 when the stored
maxTokens is falsy. -/
def calculateMaxTokens (st : ConvState) : Int :=
  let base : Int := if st.maxTokens ≠ 0 then st.maxTokens else 15000
  min (base + 2000 * (st.toolCalls.length : Int) +
        100 * (st.messages.length : Int)) 100000

/-- The transformed request object built by `transformRequestIn`. -/
structure TransformedReq where
  model : JVal
  input : List JVal
  max_output_tokens : Int
  reasoningEffort : String
  text : Option JVal
  stream : Bool

/-- Models `transformRequestIn(request, context)` of
`ResponsesApiV2ContinuousTransformer`, with the global state map made
explicit: fetch or create the conversation state for
`context?.conversationId || "default"`; mark it executing on a tool-result
continuation; overwrite its stored messages when the request carries a
(truthy) messages array; emit the transformed request built from the STORED
state (its model and messages, which may come from an earlier request); and
write the mutated state back to the global map. -/
def transformRequestIn (r : Req) (ctx : Option String) (g : GlobalState) :
    Except String (TransformedReq × GlobalState) :=
  let cid := cidOf ctx
  let st0 := match getState g cid with
    | some st => st
    | none => freshState r
  match isToolResultMessage r with
  | .error e => .error e
  | .ok itc =>
    let st1 := if itc then { st0 with isExecuting := true } else st0
    let st2 := match r.messages with
      | some ms => { st1 with messages := ms }
      | none => st1
    match passB st2.messages with
    | .error e => .error e
    | .ok input =>
      let t : TransformedReq :=
        { model := st2.model
          input := input
          max_output_tokens := calculateMaxTokens st2
          reasoningEffort := "high"
          text := if jsTruthy r.response_format then some r.response_format else none
          stream := jsTruthy r.stream }
      .ok (t, setState g cid st2)

/-! ### Basic lemmas about the value model -/

/-- Content values that are a string or a block array (the two defined loose
wire shapes). -/
def isStrOrArr : JVal → Bool
  | .vStr _ => true
  | .vArr _ => true
  | _ => false

/-- The loose wire shape of a content value: absent, a string, or an array
of blocks (the spec data model `ContentValue`). -/
def isLoose (v : JVal) : Bool :=
  isNullish v || isStrOrArr v

/-- Pure form of the tool-name callback for non-nullish elements:
`tc.function?.name || tc.name || "unknown"`. -/
def toolCallNameD (tc : JVal) : JVal :=
  let fn := jsGetD tc "function"
  let v1 := if isNullish fn then JVal.vUndefined else jsGetD fn "name"
  if jsTruthy v1 then v1
  else if jsTruthy (jsGetD tc "name") then jsGetD tc "name"
  else .vStr "unknown"

/-- Source messages for which the strict-shape projection provably emits a
non-empty block array: tool-role messages, messages with truthy tool_calls,
and messages with string or non-empty-array content.  (The complement -
empty-array content, or content that is neither string nor array on a
message without tool markers - projects to an EMPTY block array.) -/
def forcesNonempty (m : JVal) : Prop :=
  jsStrEq (jsGetD m "role") "tool" = true ∨
  jsTruthy (jsGetD m "tool_calls") = true ∨
  (∃ s, jsGetD m "content" = JVal.vStr s) ∨
  (∃ x xs, jsGetD m "content" = JVal.vArr (x :: xs))

theorem getKey_setKey_self (fs : List (String × JVal)) (k : String) (v : JVal) :
    getKey (setKey fs k v) k = some v := by
  induction fs with
  | nil => simp [setKey, getKey]
  | cons p fs ih =>
    by_cases h : p.1 = k
    · simp [setKey, getKey, h]
    · simp [setKey, getKey, h, ih]

theorem getKey_setKey_ne (fs : List (String × JVal)) (k key : String) (v : JVal)
    (h : key ≠ k) : getKey (setKey fs k v) key = getKey fs key := by
  induction fs with
  | nil => simp [setKey, getKey, Ne.symm h]
  | cons p fs ih =>
    by_cases h1 : p.1 = k
    · simp [setKey, getKey, h1, Ne.symm h]
    · simp only [setKey, h1, if_false, getKey]
      by_cases h2 : p.1 = key
      · simp [h2]
      · simp [h2, ih]

theorem jsGetD_jsSet_self (m : JVal) (k : String) (v : JVal) :
    jsGetD (jsSet m k v) k = v := by
  simp [jsSet, jsGetD, getKey_setKey_self]

theorem jsGetD_jsSet_ne (fs : List (String × JVal)) (k key : String) (v : JVal)
    (h : key ≠ k) : jsGetD (jsSet (.vObj fs) k v) key = jsGetD (.vObj fs) key := by
  simp [jsSet, jsGetD, spreadFields, getKey_setKey_ne _ _ _ _ h]

theorem isNullish_jsSet (m : JVal) (k : String) (v : JVal) :
    isNullish (jsSet m k v) = false := rfl

/-! ### Lemmas about the effectful map -/

theorem mapME_ok_forall₂ {α β : Type} (f : α → Except String β)
    {xs : List α} {ys : List β} (h : mapME f xs = .ok ys) :
    List.Forall₂ (fun x y => f x = .ok y) xs ys := by
  induction xs generalizing ys with
  | nil =>
    simp only [mapME] at h
    cases h
    exact List.Forall₂.nil
  | cons x xs ih =>
    simp only [mapME] at h
    split at h
    next e heq => simp at h
    next y heq =>
      split at h
      next e2 heq2 => simp at h
      next ys' heq2 =>
        cases h
        exact List.Forall₂.cons heq (ih heq2)

theorem mapME_ok_of_forall {α β : Type} (f : α → Except String β)
    {xs : List α} {ys : List β}
    (h : List.Forall₂ (fun x y => f x = .ok y) xs ys) :
    mapME f xs = .ok ys := by
  induction h with
  | nil => rfl
  | cons hx _ ih => simp only [mapME, hx, ih]

theorem mapME_total {α β : Type} (f : α → Except String β)
    {xs : List α} (h : ∀ x ∈ xs, ∃ y, f x = .ok y) :
    ∃ ys, mapME f xs = .ok ys := by
  induction xs with
  | nil => exact ⟨[], rfl⟩
  | cons x xs ih =>
    obtain ⟨y, hy⟩ := h x (List.mem_cons_self x xs)
    obtain ⟨ys, hys⟩ := ih (fun z hz => h z (List.mem_cons_of_mem x hz))
    exact ⟨y :: ys, by simp only [mapME, hy, hys]⟩

/-! ### Properties of the pass A item normalizer -/

theorem fixContentItem_not_nullish (item : JVal) :
    isNullish (fixContentItem item) = false := by
  simp only [fixContentItem]
  split_ifs <;> first | rfl | simp_all [isNullish, isObjLike]

theorem filter_map_fixContentItem (items : List JVal) :
    (items.map fixContentItem).filter (fun i => !(isNullish i)) =
      items.map fixContentItem := by
  rw [List.filter_eq_self]
  intro a ha
  obtain ⟨b, _, hb⟩ := List.mem_map.mp ha
  rw [← hb, fixContentItem_not_nullish]
  rfl

theorem toolCallName_ok (tc : JVal) (h : isNullish tc = false) :
    toolCallName tc = .ok (toolCallNameD tc) := by
  simp only [toolCallName, toolCallNameD, h, Bool.false_eq_true, if_false]
  split_ifs <;> rfl

theorem mapME_toolCallName (tcs : List JVal)
    (h : ∀ tc ∈ tcs, isNullish tc = false) :
    mapME toolCallName tcs = .ok (tcs.map toolCallNameD) := by
  apply mapME_ok_of_forall
  rw [List.forall₂_map_right_iff]
  rw [List.forall₂_same]
  intro tc htc
  exact toolCallName_ok tc (h tc htc)

/-! ### Per-message properties of pass A -/

theorem fix_ok_content (msg m' : JVal) (h : fixMessageContent msg = .ok m') :
    isNullish (jsGetD m' "content") = false ∧
    (isLoose (jsGetD msg "content") = true → isStrOrArr (jsGetD m' "content") = true) := by
  simp only [fixMessageContent] at h
  split at h
  · simp at h
  · split at h
    · cases h
      refine ⟨by rw [jsGetD_jsSet_self]; rfl, fun _ => by rw [jsGetD_jsSet_self]; rfl⟩
    · split at h
      · split at h
        · simp at h
        · cases h
          refine ⟨by rw [jsGetD_jsSet_self]; rfl, fun _ => by rw [jsGetD_jsSet_self]; rfl⟩
      · split at h
        · cases h
          refine ⟨by rw [jsGetD_jsSet_self]; split <;> rfl,
            fun _ => by rw [jsGetD_jsSet_self]; split <;> rfl⟩
        · split at h
          · cases h
            refine ⟨by rw [jsGetD_jsSet_self]; rfl, fun _ => by rw [jsGetD_jsSet_self]; rfl⟩
          · cases h
            next hnn _ =>
              constructor
              · simp_all
              · intro hl
                simp only [isLoose, Bool.or_eq_true] at hl
                rcases hl with hl | hl
                · simp_all
                · exact hl

theorem fix_total (msg : JVal) (h0 : isNullish msg = false)
    (h1 : ∀ tc ∈ arrElems (jsGetD msg "tool_calls"), isNullish tc = false) :
    ∃ m', fixMessageContent msg = .ok m' := by
  obtain ⟨names, hn⟩ : ∃ names,
      mapME toolCallName (arrElems (jsGetD msg "tool_calls")) = .ok names :=
    mapME_total _ (fun tc htc => ⟨toolCallNameD tc, toolCallName_ok tc (h1 tc htc)⟩)
  simp only [fixMessageContent, h0, Bool.false_eq_true, if_false]
  split
  · exact ⟨_, rfl⟩
  · split
    · exact ⟨_, by rw [hn]⟩
    · split
      · exact ⟨_, rfl⟩
      · split
        · exact ⟨_, rfl⟩
        · exact ⟨_, rfl⟩

/-! ### Per-message properties of pass B -/

theorem truthyFix_str (s : String) :
    (if jsTruthy (JVal.vStr s) then JVal.vStr s else JVal.vStr "") = JVal.vStr s := by
  by_cases hs : s = ""
  · simp [jsTruthy, hs]
  · simp [jsTruthy, hs]

theorem truthyFix_chain (t cc : JVal) :
    (if jsTruthy (if jsTruthy t then t else if jsTruthy cc then cc else JVal.vStr "")
      then (if jsTruthy t then t else if jsTruthy cc then cc else JVal.vStr "")
      else JVal.vStr "") =
    (if jsTruthy t then t else if jsTruthy cc then cc else JVal.vStr "") := by
  split_ifs with h1 h2 <;> simp_all [jsTruthy]

theorem jsGetD_mkMsg_role (r : JVal) (blocks : List JVal) :
    jsGetD (mkMsg r blocks) "role" = r := rfl

theorem jsGetD_mkMsg_content (r : JVal) (blocks : List JVal) :
    jsGetD (mkMsg r blocks) "content" = .vArr blocks := rfl

theorem jsGetD_mkMsg_toolcalls (r : JVal) (blocks : List JVal) :
    jsGetD (mkMsg r blocks) "tool_calls" = .vUndefined := rfl

theorem isNullish_mkMsg (r : JVal) (blocks : List JVal) :
    isNullish (mkMsg r blocks) = false := rfl

theorem jsGetD_mkBlock_text (ty : String) (t : JVal) :
    jsGetD (mkBlock ty t) "text" = t := rfl

theorem jsGetD_mkBlock_content (ty : String) (t : JVal) :
    jsGetD (mkBlock ty t) "content" = .vUndefined := rfl

theorem isNullish_mkBlock (ty : String) (t : JVal) :
    isNullish (mkBlock ty t) = false := rfl

theorem forall₂_right_mem {α β : Type} {R : α → β → Prop}
    {xs : List α} {ys : List β} (h : List.Forall₂ R xs ys) :
    ∀ b ∈ ys, ∃ x ∈ xs, R x b := by
  induction h with
  | nil => intro b hb; simp at hb
  | cons hx htl ih =>
    intro b hb
    rcases List.mem_cons.mp hb with hb | hb
    · subst hb; exact ⟨_, List.mem_cons_self _ _, hx⟩
    · obtain ⟨x, hxm, hr⟩ := ih b hb
      exact ⟨x, List.mem_cons_of_mem _ hxm, hr⟩

theorem convertMsg_ok_shape (m m' : JVal) (h : convertMsg m = .ok m') :
    ∃ r blocks, m' = mkMsg r blocks ∧ jsStrEq r "tool" = false ∧
      (∀ b ∈ blocks, ∃ t, b = mkBlock (typeFor r) t ∧
        (if jsTruthy t then t else JVal.vStr "") = t) ∧
      (forcesNonempty m → blocks ≠ []) := by
  simp only [convertMsg] at h
  split at h
  · simp at h
  · split at h
    next hrole =>
      cases h
      refine ⟨JVal.vStr "user", _, rfl, by rfl, ?_, fun _ => by simp⟩
      intro b hb
      simp only [List.mem_singleton] at hb
      subst hb
      exact ⟨_, rfl, truthyFix_str _⟩
    next hrole =>
      rw [Bool.not_eq_true] at hrole
      split at h
      next htc =>
        split at h
        next tcs heqtc =>
          split at h
          · simp at h
          · cases h
            refine ⟨_, _, rfl, hrole, ?_, fun _ => by simp⟩
            intro b hb
            simp only [List.mem_singleton] at hb
            subst hb
            exact ⟨_, rfl, truthyFix_str _⟩
        next hneq => simp at h
      next htc =>
        rw [Bool.not_eq_true] at htc
        split at h
        next s heqc =>
          cases h
          refine ⟨_, _, rfl, hrole, ?_, fun _ => by simp⟩
          intro b hb
          simp only [List.mem_singleton] at hb
          subst hb
          exact ⟨_, rfl, truthyFix_str _⟩
        next xs heqc =>
          split at h
          · simp at h
          next blocks hblocks =>
            cases h
            refine ⟨_, _, rfl, hrole, ?_, ?_⟩
            · intro b hb
              have hf := forall₂_right_mem (mapME_ok_forall₂ _ hblocks) b hb
              obtain ⟨x, _, hx⟩ := hf
              by_cases hnx : isNullish x = true
              · simp [hnx] at hx
              · rw [Bool.not_eq_true] at hnx
                simp only [hnx, Bool.false_eq_true, if_false, Except.ok.injEq] at hx
                exact ⟨_, hx.symm, truthyFix_chain _ _⟩
            · intro hforce
              rcases hforce with hf | hf | ⟨s, hf⟩ | ⟨x, l, hf⟩
              · rw [hrole] at hf; cases hf
              · rw [htc] at hf; cases hf
              · rw [heqc] at hf; cases hf
              · rw [heqc] at hf
                cases hf
                have hlen := (mapME_ok_forall₂ _ hblocks).length_eq
                intro hemp
                rw [hemp] at hlen
                simp at hlen
        next hne1 hne2 =>
          cases h
          refine ⟨_, _, rfl, hrole, by simp, ?_⟩
          intro hforce
          rcases hforce with hf | hf | ⟨s, hf⟩ | ⟨x, l, hf⟩
          · simp [hrole] at hf
          · simp [htc] at hf
          · cases hne1 s hf
          · cases hne2 _ hf

theorem convertMsg_reapply (r : JVal) (blocks : List JVal)
    (hr : jsStrEq r "tool" = false)
    (hb : ∀ b ∈ blocks, ∃ t, b = mkBlock (typeFor r) t ∧
      (if jsTruthy t then t else JVal.vStr "") = t) :
    convertMsg (mkMsg r blocks) = .ok (mkMsg r blocks) := by
  have hmap : mapME (fun c =>
      if isNullish c then
        (.error "TypeError: cannot read properties of null" : Except String JVal)
      else
        let t := jsGetD c "text"
        let cc := jsGetD c "content"
        .ok (mkBlock (typeFor r)
          (if jsTruthy t then t else if jsTruthy cc then cc else .vStr ""))) blocks =
      .ok blocks := by
    apply mapME_ok_of_forall
    rw [List.forall₂_same]
    intro b hbm
    obtain ⟨t, hbt, hfix⟩ := hb b hbm
    subst hbt
    simp only [isNullish_mkBlock, Bool.false_eq_true, if_false,
      jsGetD_mkBlock_text, jsGetD_mkBlock_content]
    have : (if jsTruthy t then t else if jsTruthy JVal.vUndefined then JVal.vUndefined
        else JVal.vStr "") = t := by
      rw [show jsTruthy JVal.vUndefined = false from rfl] at *
      simpa using hfix
    rw [this]
  simp only [convertMsg, isNullish_mkMsg, Bool.false_eq_true, if_false,
    jsGetD_mkMsg_role, jsGetD_mkMsg_content, jsGetD_mkMsg_toolcalls, hr,
    show jsTruthy JVal.vUndefined = false from rfl]
  rw [hmap]

/-! ### Properties of the stateful transformer -/

theorem map_fst_aux (X : Except String (List JVal))
    (f : List JVal → TransformedReq) (s1 s2 : GlobalState) :
    Except.map Prod.fst (match X with
      | .error e => .error e
      | .ok input => .ok (f input, s1)) =
    Except.map Prod.fst (match X with
      | .error e => .error e
      | .ok input => .ok (f input, s2)) := by
  cases X <;> rfl

/-! ### Claim theorems -/

/-- Claim C1 (confirmed): after normalizer pass A, every message content is
defined (never nullish); and whenever the incoming content had the loose wire
shape (absent, a string, or a block array), the outgoing content is a string
or a block array. -/
theorem C1_passA_content_defined (msgs ys : List JVal) (h : passA msgs = .ok ys) :
    List.Forall₂ (fun m m' => isNullish (jsGetD m' "content") = false ∧
      (isLoose (jsGetD m "content") = true → isStrOrArr (jsGetD m' "content") = true))
      msgs ys :=
  (mapME_ok_forall₂ _ h).imp (fun a b hab => fix_ok_content a b hab)

/-- Witness for C1 at a concrete request: a user message with null content. -/
theorem C1_passA_content_defined_witness :
    passA [JVal.vObj [("role", .vStr "user"), ("content", .vNull)]] =
      .ok [JVal.vObj [("role", .vStr "user"), ("content", .vStr "")]] ∧
    List.Forall₂ (fun m m' => isNullish (jsGetD m' "content") = false ∧
      (isLoose (jsGetD m "content") = true → isStrOrArr (jsGetD m' "content") = true))
      [JVal.vObj [("role", .vStr "user"), ("content", .vNull)]]
      [JVal.vObj [("role", .vStr "user"), ("content", .vStr "")]] :=
  ⟨rfl, C1_passA_content_defined
    [JVal.vObj [("role", .vStr "user"), ("content", .vNull)]]
    [JVal.vObj [("role", .vStr "user"), ("content", .vStr "")]] rfl⟩

/-- Claim C6 (corrected): pass A completes without an exception on every
messages array whose elements are all non-nullish and whose tool_calls
arrays contain no nullish element.  (As stated - for arbitrary element
shapes including null - the claim is false: see the counterexample.) -/
theorem C6_passA_no_throw (msgs : List JVal)
    (h : ∀ m ∈ msgs, isNullish m = false ∧
      ∀ tc ∈ arrElems (jsGetD m "tool_calls"), isNullish tc = false) :
    ∃ ys, passA msgs = .ok ys :=
  mapME_total _ (fun m hm => fix_total m (h m hm).1 (h m hm).2)

/-- Witness for C6: a request with an object message, a primitive message and
an assistant tool-call message all normalize without throwing. -/
theorem C6_passA_no_throw_witness :
    ∃ ys, passA [JVal.vObj [("role", .vStr "user"), ("content", .vNull)],
      JVal.vNum 7,
      JVal.vObj [("role", .vStr "assistant"), ("content", .vNull),
        ("tool_calls", .vArr [.vObj [("name", .vStr "search")]])]] = .ok ys :=
  C6_passA_no_throw _ (by decide)

/-- Counterexample for C6 as stated: a null element in the messages array
makes pass A throw a TypeError (reading msg.role of null). -/
theorem C6_null_element_throws :
    passA [JVal.vNull] = .error "TypeError: cannot read properties of null" := rfl

/-- Claim C7 (corrected): pass B - the strict-shape projection - is
idempotent: re-projecting its own output reproduces it exactly.  (Pass A is
NOT idempotent, see the counterexample.) -/
theorem C7_passB_idempotent (msgs ys : List JVal) (h : passB msgs = .ok ys) :
    passB ys = .ok ys := by
  apply mapME_ok_of_forall
  rw [List.forall₂_same]
  intro y hy
  obtain ⟨x, _, hx⟩ := forall₂_right_mem (mapME_ok_forall₂ _ h) y hy
  obtain ⟨r, blocks, h1, h2, h3, _⟩ := convertMsg_ok_shape x y hx
  subst h1
  exact convertMsg_reapply r blocks h2 h3

/-- Witness for C7 at a concrete input: a string message and a tool message. -/
theorem C7_passB_idempotent_witness :
    passB [JVal.vObj [("role", .vStr "user"), ("content", .vStr "hi")],
           JVal.vObj [("role", .vStr "tool"), ("tool_call_id", .vStr "t1"),
             ("content", .vStr "out")]] =
      .ok [JVal.vObj [("role", .vStr "user"),
             ("content", .vArr [.vObj [("type", .vStr "input_text"), ("text", .vStr "hi")]])],
           JVal.vObj [("role", .vStr "user"),
             ("content", .vArr [.vObj [("type", .vStr "input_text"),
               ("text", .vStr "[Tool Result t1]\nout")]])]] ∧
    passB [JVal.vObj [("role", .vStr "user"),
             ("content", .vArr [.vObj [("type", .vStr "input_text"), ("text", .vStr "hi")]])],
           JVal.vObj [("role", .vStr "user"),
             ("content", .vArr [.vObj [("type", .vStr "input_text"),
               ("text", .vStr "[Tool Result t1]\nout")]])]] =
      .ok [JVal.vObj [("role", .vStr "user"),
             ("content", .vArr [.vObj [("type", .vStr "input_text"), ("text", .vStr "hi")]])],
           JVal.vObj [("role", .vStr "user"),
             ("content", .vArr [.vObj [("type", .vStr "input_text"),
               ("text", .vStr "[Tool Result t1]\nout")]])]] :=
  ⟨rfl, C7_passB_idempotent
    [JVal.vObj [("role", .vStr "user"), ("content", .vStr "hi")],
     JVal.vObj [("role", .vStr "tool"), ("tool_call_id", .vStr "t1"),
       ("content", .vStr "out")]]
    [JVal.vObj [("role", .vStr "user"),
       ("content", .vArr [.vObj [("type", .vStr "input_text"), ("text", .vStr "hi")]])],
     JVal.vObj [("role", .vStr "user"),
       ("content", .vArr [.vObj [("type", .vStr "input_text"),
         ("text", .vStr "[Tool Result t1]\nout")]])]] rfl⟩

/-- Counterexample for C7 as stated: pass A is not idempotent.  A text block
with undefined text first becomes a text block with empty text; the second
application then also appends a content field, so normalize(normalize(x))
differs from normalize(x). -/
theorem C7_passA_not_idempotent :
    passA [JVal.vObj [("role", .vStr "user"),
      ("content", .vArr [.vObj [("type", .vStr "text")]])]] =
      .ok [JVal.vObj [("role", .vStr "user"),
        ("content", .vArr [.vObj [("type", .vStr "text"), ("text", .vStr "")]])]] ∧
    passA [JVal.vObj [("role", .vStr "user"),
      ("content", .vArr [.vObj [("type", .vStr "text"), ("text", .vStr "")]])]] =
      .ok [JVal.vObj [("role", .vStr "user"),
        ("content", .vArr [.vObj [("type", .vStr "text"), ("text", .vStr ""),
          ("content", .vStr "")]])]] ∧
    [JVal.vObj [("role", .vStr "user"),
      ("content", .vArr [.vObj [("type", .vStr "text"), ("text", .vStr "")]])]] ≠
    [JVal.vObj [("role", .vStr "user"),
      ("content", .vArr [.vObj [("type", .vStr "text"), ("text", .vStr ""),
        ("content", .vStr "")]])]] :=
  ⟨rfl, rfl, by simp⟩

/-- Claim C3 (corrected): for a message with nullish content that carries a
tool_calls array (and no tool-role markers), pass A synthesizes
"[Executing N tool(s): " followed by the comma-joined tool names and "]" -
with a count and surrounding brackets, not the claimed
"Executing tools: ..." format. -/
theorem C3_executing_tools_text (msg : JVal) (tcs : List JVal)
    (h0 : isNullish msg = false)
    (h1 : (jsStrEq (jsGetD msg "role") "tool" ||
      jsTruthy (jsGetD msg "tool_call_id")) = false)
    (h2 : jsGetD msg "tool_calls" = .vArr tcs)
    (h3 : isNullish (jsGetD msg "content") = true)
    (h4 : ∀ tc ∈ tcs, isNullish tc = false) :
    fixMessageContent msg = .ok (jsSet msg "content" (.vStr
      ("[Executing " ++ toString tcs.length ++ " tool" ++
        (if tcs.length > 1 then "s" else "") ++ ": " ++
        jsJoinWith ", " (tcs.map toolCallNameD) ++ "]"))) := by
  simp only [fixMessageContent, h0, h1, h2, h3, Bool.false_and,
    Bool.false_eq_true, if_false, isArr, Bool.and_true, if_true]
  rw [show arrElems (JVal.vArr tcs) = tcs from rfl, mapME_toolCallName tcs h4]
  simp only [executingText, List.length_map]

/-- Witness for C3: scenario D.  The assistant message with null content and
one tool call named "search" gets content "[Executing 1 tool: search]". -/
theorem C3_executing_tools_text_witness :
    fixMessageContent (.vObj [("role", .vStr "assistant"), ("content", .vNull),
      ("tool_calls", .vArr [.vObj [("name", .vStr "search")]])]) =
    .ok (.vObj [("role", .vStr "assistant"),
      ("content", .vStr "[Executing 1 tool: search]"),
      ("tool_calls", .vArr [.vObj [("name", .vStr "search")]])]) := by
  have h := C3_executing_tools_text
    (.vObj [("role", .vStr "assistant"), ("content", .vNull),
      ("tool_calls", .vArr [.vObj [("name", .vStr "search")]])])
    [.vObj [("name", .vStr "search")]] rfl rfl rfl rfl (by decide)
  exact h

/-- Counterexample for C3 as stated: scenario D yields
"[Executing 1 tool: search]", not "Executing tools: search". -/
theorem C3_executing_tools_counterexample :
    fixMessageContent (.vObj [("role", .vStr "assistant"), ("content", .vNull),
      ("tool_calls", .vArr [.vObj [("name", .vStr "search")]])]) =
    .ok (.vObj [("role", .vStr "assistant"),
      ("content", .vStr "[Executing 1 tool: search]"),
      ("tool_calls", .vArr [.vObj [("name", .vStr "search")]])]) ∧
    "[Executing 1 tool: search]" ≠ "Executing tools: search" :=
  ⟨rfl, by decide⟩

/-- Claim C4 (corrected): for array-valued content, pass A coerces nullish
elements to empty text blocks IN PLACE (it does not drop them - the
trailing filter removes nothing because no normalized element is nullish),
so element count is preserved; and an empty list stays empty (no placeholder
is inserted by the messages-array pass). -/
theorem C4_array_content_coerced (msg : JVal) (items : List JVal)
    (h0 : isNullish msg = false)
    (h2 : jsGetD msg "content" = .vArr items) :
    fixMessageContent msg =
      .ok (jsSet msg "content" (.vArr (items.map fixContentItem))) ∧
    (items.map fixContentItem).length = items.length ∧
    fixContentItem .vNull = .vObj [("type", .vStr "text"), ("text", .vStr "")] := by
  refine ⟨?_, List.length_map _ _, rfl⟩
  simp only [fixMessageContent, h0, h2,
    show isNullish (JVal.vArr items) = false from rfl,
    Bool.and_false, Bool.false_eq_true, if_false]
  rw [filter_map_fixContentItem]

/-- Witness for C4: scenario E.  All three elements survive (count 3, not 2):
the nullish element and the null-text block become empty text blocks, and the
well-formed text block gains a content field. -/
theorem C4_array_content_coerced_witness :
    fixMessageContent (.vObj [("role", .vStr "user"),
      ("content", .vArr [.vNull,
        .vObj [("type", .vStr "text"), ("text", .vNull)],
        .vObj [("type", .vStr "text"), ("text", .vStr "ok")]])]) =
    .ok (.vObj [("role", .vStr "user"),
      ("content", .vArr [
        .vObj [("type", .vStr "text"), ("text", .vStr "")],
        .vObj [("type", .vStr "text"), ("text", .vStr "")],
        .vObj [("type", .vStr "text"), ("text", .vStr "ok"), ("content", .vStr "")]])]) := by
  have h := (C4_array_content_coerced (.vObj [("role", .vStr "user"),
      ("content", .vArr [.vNull,
        .vObj [("type", .vStr "text"), ("text", .vNull)],
        .vObj [("type", .vStr "text"), ("text", .vStr "ok")]])])
    [.vNull,
      .vObj [("type", .vStr "text"), ("text", .vNull)],
      .vObj [("type", .vStr "text"), ("text", .vStr "ok")]] rfl rfl).1
  exact h

/-- Counterexample for C4 as stated: scenario E does NOT produce the claimed
two-element Blocks([Text "", Text "ok"]); the nullish element is coerced, not
dropped, so three elements remain (and the third gains a content field). -/
theorem C4_array_counterexample :
    fixMessageContent (.vObj [("role", .vStr "user"),
      ("content", .vArr [.vNull,
        .vObj [("type", .vStr "text"), ("text", .vNull)],
        .vObj [("type", .vStr "text"), ("text", .vStr "ok")]])]) =
    .ok (.vObj [("role", .vStr "user"),
      ("content", .vArr [
        .vObj [("type", .vStr "text"), ("text", .vStr "")],
        .vObj [("type", .vStr "text"), ("text", .vStr "")],
        .vObj [("type", .vStr "text"), ("text", .vStr "ok"), ("content", .vStr "")]])]) ∧
    JVal.vArr [
        .vObj [("type", .vStr "text"), ("text", .vStr "")],
        .vObj [("type", .vStr "text"), ("text", .vStr "")],
        .vObj [("type", .vStr "text"), ("text", .vStr "ok"), ("content", .vStr "")]] ≠
      JVal.vArr [
        .vObj [("type", .vStr "text"), ("text", .vStr "")],
        .vObj [("type", .vStr "text"), ("text", .vStr "ok")]] :=
  ⟨rfl, by simp⟩

/-- Claim C5 (corrected): a message with nullish content, no tool-calls array
and no tool-role markers gets content "" when its role is "user", and
"[Continuing...]" for EVERY other role - including "system", for which the
claim wrongly states "". -/
theorem C5_null_content_roles (msg : JVal)
    (h0 : isNullish msg = false)
    (h1 : (jsStrEq (jsGetD msg "role") "tool" ||
      jsTruthy (jsGetD msg "tool_call_id")) = false)
    (h2 : isArr (jsGetD msg "tool_calls") = false)
    (h3 : isNullish (jsGetD msg "content") = true) :
    fixMessageContent msg = .ok (jsSet msg "content"
      (if jsStrEq (jsGetD msg "role") "user" then .vStr ""
       else .vStr "[Continuing...]")) := by
  simp only [fixMessageContent, h0, h1, h2, h3, Bool.false_and,
    Bool.false_eq_true, if_false, if_true]

/-- Witness for C5: a user message with null content gets "". -/
theorem C5_null_content_roles_witness :
    fixMessageContent (.vObj [("role", .vStr "user"), ("content", .vNull)]) =
      .ok (.vObj [("role", .vStr "user"), ("content", .vStr "")]) := by
  have h := C5_null_content_roles
    (.vObj [("role", .vStr "user"), ("content", .vNull)]) rfl rfl rfl rfl
  exact h

/-- Counterexample for C5 as stated: a system message with null content gets
"[Continuing...]", not the claimed "". -/
theorem C5_system_counterexample :
    fixMessageContent (.vObj [("role", .vStr "system"), ("content", .vNull)]) =
      .ok (.vObj [("role", .vStr "system"), ("content", .vStr "[Continuing...]")]) ∧
    JVal.vStr "[Continuing...]" ≠ JVal.vStr "" :=
  ⟨rfl, by simp⟩

/-- Claim C2 (corrected): after pass B (the strict-shape projection), every
message is role + a block array whose blocks all carry the role-determined
type tag and a DEFINED (never nullish) text value; the block array is
non-empty for every message with a tool role, truthy tool_calls, string
content, or non-empty array content - but an empty content array (or content
that is neither string nor array) projects to an EMPTY block array, and a
kept text value need not be a string. -/
theorem C2_passB_strict_shape (msgs ys : List JVal) (h : passB msgs = .ok ys) :
    List.Forall₂ (fun m m' => ∃ r blocks, m' = mkMsg r blocks ∧
      (∀ b ∈ blocks, ∃ t, b = mkBlock (typeFor r) t ∧ isNullish t = false) ∧
      (forcesNonempty m → blocks ≠ [])) msgs ys := by
  refine (mapME_ok_forall₂ _ h).imp ?_
  intro a b hab
  obtain ⟨r, blocks, hb1, _, hb3, hb4⟩ := convertMsg_ok_shape a b hab
  refine ⟨r, blocks, hb1, ?_, hb4⟩
  intro blk hblk
  obtain ⟨t, ht1, ht2⟩ := hb3 blk hblk
  refine ⟨t, ht1, ?_⟩
  cases t <;> simp_all [isNullish, jsTruthy]

/-- Witness for C2 at a concrete input: one plain user message. -/
theorem C2_passB_strict_shape_witness :
    passB [JVal.vObj [("role", .vStr "user"), ("content", .vStr "hi")]] =
      .ok [JVal.vObj [("role", .vStr "user"),
        ("content", .vArr [.vObj [("type", .vStr "input_text"),
          ("text", .vStr "hi")]])]] ∧
    List.Forall₂ (fun m m' => ∃ r blocks, m' = mkMsg r blocks ∧
      (∀ b ∈ blocks, ∃ t, b = mkBlock (typeFor r) t ∧ isNullish t = false) ∧
      (forcesNonempty m → blocks ≠ []))
      [JVal.vObj [("role", .vStr "user"), ("content", .vStr "hi")]]
      [JVal.vObj [("role", .vStr "user"),
        ("content", .vArr [.vObj [("type", .vStr "input_text"),
          ("text", .vStr "hi")]])]] :=
  ⟨rfl, C2_passB_strict_shape
    [JVal.vObj [("role", .vStr "user"), ("content", .vStr "hi")]]
    [JVal.vObj [("role", .vStr "user"),
      ("content", .vArr [.vObj [("type", .vStr "input_text"),
        ("text", .vStr "hi")]])]] rfl⟩

/-- Counterexample for C2 as stated: a message whose content is the empty
block array projects to an EMPTY content array (not non-empty), and a block
whose text is the number 5 keeps that non-string text. -/
theorem C2_empty_blocks_counterexample :
    passB [JVal.vObj [("role", .vStr "user"), ("content", .vArr [])],
           JVal.vObj [("role", .vStr "user"),
             ("content", .vArr [.vObj [("text", .vNum 5)]])]] =
      .ok [JVal.vObj [("role", .vStr "user"), ("content", .vArr [])],
           JVal.vObj [("role", .vStr "user"),
             ("content", .vArr [.vObj [("type", .vStr "input_text"),
               ("text", .vNum 5)]])]] ∧
    (∀ s : String, JVal.vNum 5 ≠ JVal.vStr s) :=
  ⟨rfl, fun s => by simp⟩

/-- Claim C8 (corrected): pass B renders a tool-role message as ONE
input_text block whose text is "[Tool Result " + String(toolCallId) + "]\n"
+ String(content) - plain template-literal stringification with NO
"[No output]" fallback: a null content renders as the string "null". -/
theorem C8_tool_result_block (msg : JVal)
    (h0 : isNullish msg = false)
    (h1 : jsStrEq (jsGetD msg "role") "tool" = true) :
    convertMsg msg = .ok (mkMsg (.vStr "user")
      [mkBlock "input_text"
        (.vStr ("[Tool Result " ++ jsToString (jsGetD msg "tool_call_id")
          ++ "]\n" ++ jsToString (jsGetD msg "content")))]) := by
  simp only [convertMsg, h0, h1, Bool.false_eq_true, if_false, if_true]

/-- Witness for C8: a tool message with tool_call_id "t1" and content "out"
becomes one block with text "[Tool Result t1]\nout". -/
theorem C8_tool_result_block_witness :
    convertMsg (.vObj [("role", .vStr "tool"), ("tool_call_id", .vStr "t1"),
      ("content", .vStr "out")]) =
    .ok (.vObj [("role", .vStr "user"),
      ("content", .vArr [.vObj [("type", .vStr "input_text"),
        ("text", .vStr "[Tool Result t1]\nout")]])]) := by
  have h := C8_tool_result_block
    (.vObj [("role", .vStr "tool"), ("tool_call_id", .vStr "t1"),
      ("content", .vStr "out")]) rfl rfl
  exact h

/-- Counterexample for C8 as stated: with null content the rendered text is
"[Tool Result t1]\nnull" (String(null)), not the claimed
"[Tool Result t1]\n[No output]". -/
theorem C8_no_output_counterexample :
    convertMsg (.vObj [("role", .vStr "tool"), ("tool_call_id", .vStr "t1"),
      ("content", .vNull)]) =
    .ok (.vObj [("role", .vStr "user"),
      ("content", .vArr [.vObj [("type", .vStr "input_text"),
        ("text", .vStr "[Tool Result t1]\nnull")]])]) ∧
    "[Tool Result t1]\nnull" ≠ "[Tool Result t1]\n[No output]" :=
  ⟨rfl, by decide⟩

/-- Claim C9 (corrected): the transformation is deterministic in
(request, context) ONLY when the conversation id is fresh: with no stored
state for the id, the emitted transformed request does not depend on the
rest of the global conversation-state map.  (With stored state it does -
see the counterexample.) -/
theorem C9_fresh_conversation_deterministic (r : Req) (c : Option String)
    (g1 g2 : GlobalState)
    (h1 : getState g1 (cidOf c) = none) (h2 : getState g2 (cidOf c) = none) :
    Except.map Prod.fst (transformRequestIn r c g1) =
      Except.map Prod.fst (transformRequestIn r c g2) := by
  simp only [transformRequestIn, h1, h2]
  cases hit : isToolResultMessage r with
  | error e => rfl
  | ok itc => apply map_fst_aux

/-- Witness for C9: with an empty map and with a map holding state for a
different conversation id, the same request transforms identically. -/
theorem C9_fresh_conversation_deterministic_witness :
    getState ([] : GlobalState) (cidOf none) = none ∧
    getState [("other",
      { messages := [], model := .vStr "x", toolCalls := [],
        iterations := 0, maxTokens := 50, isExecuting := false })] (cidOf none) = none ∧
    Except.map Prod.fst (transformRequestIn
      { model := .vStr "m1",
        messages := some [JVal.vObj [("role", .vStr "user"), ("content", .vStr "hi")]],
        max_tokens := none, response_format := .vUndefined, stream := .vUndefined } none []) =
    Except.map Prod.fst (transformRequestIn
      { model := .vStr "m1",
        messages := some [JVal.vObj [("role", .vStr "user"), ("content", .vStr "hi")]],
        max_tokens := none, response_format := .vUndefined, stream := .vUndefined } none
      [("other",
        { messages := [], model := .vStr "x", toolCalls := [],
          iterations := 0, maxTokens := 50, isExecuting := false })]) :=
  ⟨rfl, rfl, C9_fresh_conversation_deterministic
    { model := .vStr "m1",
      messages := some [JVal.vObj [("role", .vStr "user"), ("content", .vStr "hi")]],
      max_tokens := none, response_format := .vUndefined, stream := .vUndefined } none []
    [("other",
      { messages := [], model := .vStr "x", toolCalls := [],
        iterations := 0, maxTokens := 50, isExecuting := false })] rfl rfl⟩

/-- Counterexample for C9 as stated: processing one request writes state
under conversation id "default" (the global __responsesApiV2State survives
across requests); a later request without a messages field is then
transformed using the stored model and messages of the EARLIER request, so the
same (request, config) pair transforms differently depending on what was
processed before. -/
theorem C9_shared_state_counterexample :
    transformRequestIn
      { model := .vStr "m1",
        messages := some [JVal.vObj [("role", .vStr "user"), ("content", .vStr "hi")]],
        max_tokens := none, response_format := .vUndefined, stream := .vUndefined } none [] =
      .ok ({ model := .vStr "m1",
             input := [JVal.vObj [("role", .vStr "user"),
               ("content", .vArr [.vObj [("type", .vStr "input_text"),
                 ("text", .vStr "hi")]])]],
             max_output_tokens := 100000, reasoningEffort := "high",
             text := none, stream := false },
           [("default",
             { messages := [JVal.vObj [("role", .vStr "user"),
                 ("content", .vStr "hi")]],
               model := .vStr "m1", toolCalls := [], iterations := 0,
               maxTokens := 100000, isExecuting := false })]) ∧
    transformRequestIn
      { model := .vStr "m2", messages := none, max_tokens := none,
        response_format := .vUndefined, stream := .vUndefined } none [] =
      .ok ({ model := .vStr "m2", input := [], max_output_tokens := 100000,
             reasoningEffort := "high", text := none, stream := false },
           [("default",
             { messages := [], model := .vStr "m2", toolCalls := [],
               iterations := 0, maxTokens := 100000, isExecuting := false })]) ∧
    transformRequestIn
      { model := .vStr "m2", messages := none, max_tokens := none,
        response_format := .vUndefined, stream := .vUndefined } none
      [("default",
        { messages := [JVal.vObj [("role", .vStr "user"),
            ("content", .vStr "hi")]],
          model := .vStr "m1", toolCalls := [], iterations := 0,
          maxTokens := 100000, isExecuting := false })] =
      .ok ({ model := .vStr "m1",
             input := [JVal.vObj [("role", .vStr "user"),
               ("content", .vArr [.vObj [("type", .vStr "input_text"),
                 ("text", .vStr "hi")]])]],
             max_output_tokens := 100000, reasoningEffort := "high",
             text := none, stream := false },
           [("default",
             { messages := [JVal.vObj [("role", .vStr "user"),
                 ("content", .vStr "hi")]],
               model := .vStr "m1", toolCalls := [], iterations := 0,
               maxTokens := 100000, isExecuting := false })]) ∧
    ({ model := .vStr "m2", input := [], max_output_tokens := 100000,
       reasoningEffort := "high", text := none, stream := false } : TransformedReq) ≠
      { model := .vStr "m1",
        input := [JVal.vObj [("role", .vStr "user"),
          ("content", .vArr [.vObj [("type", .vStr "input_text"),
            ("text", .vStr "hi")]])]],
        max_output_tokens := 100000, reasoningEffort := "high",
        text := none, stream := false } :=
  ⟨rfl, rfl, rfl, by simp⟩

/-- Claim C10 (confirmed): pass A touches at most the content field: every
other property of an object message is read back unchanged, and a message
whose content is already a defined string is returned entirely unchanged. -/
theorem C10_frame_content_only (fs : List (String × JVal)) (m' : JVal)
    (h : fixMessageContent (.vObj fs) = .ok m') :
    (∀ key, key ≠ "content" → jsGetD m' key = jsGetD (.vObj fs) key) ∧
    (∀ s, jsGetD (.vObj fs) "content" = .vStr s → m' = .vObj fs) := by
  simp only [fixMessageContent,
    show isNullish (JVal.vObj fs) = false from rfl,
    Bool.false_eq_true, if_false] at h
  split at h
  next hc1 =>
    cases h
    refine ⟨fun key hk => jsGetD_jsSet_ne fs "content" key _ hk, ?_⟩
    intro s hs
    rw [hs] at hc1
    simp [isNullish] at hc1
  next hc1 =>
    split at h
    next hc2 =>
      split at h
      · simp at h
      next names hnames =>
        cases h
        refine ⟨fun key hk => jsGetD_jsSet_ne fs "content" key _ hk, ?_⟩
        intro s hs
        rw [hs] at hc2
        simp [isNullish] at hc2
    next hc2 =>
      split at h
      next hc3 =>
        cases h
        refine ⟨fun key hk => jsGetD_jsSet_ne fs "content" key _ hk, ?_⟩
        intro s hs
        rw [hs] at hc3
        simp [isNullish] at hc3
      next hc3 =>
        split at h
        next items heq =>
          cases h
          refine ⟨fun key hk => jsGetD_jsSet_ne fs "content" key _ hk, ?_⟩
          intro s hs
          rw [hs] at heq
          cases heq
        next hne =>
          cases h
          exact ⟨fun key hk => rfl, fun s hs => rfl⟩

/-- Witness for C10: an assistant message with string content and an extra
field is returned entirely unchanged. -/
theorem C10_frame_content_only_witness :
    (∀ key, key ≠ "content" →
      jsGetD (.vObj [("role", .vStr "assistant"), ("content", .vStr "hello"),
        ("extra", .vNum 3)]) key =
      jsGetD (.vObj [("role", .vStr "assistant"), ("content", .vStr "hello"),
        ("extra", .vNum 3)]) key) ∧
    (∀ s, jsGetD (.vObj [("role", .vStr "assistant"), ("content", .vStr "hello"),
        ("extra", .vNum 3)]) "content" = .vStr s →
      (.vObj [("role", .vStr "assistant"), ("content", .vStr "hello"),
        ("extra", .vNum 3)] : JVal) =
      .vObj [("role", .vStr "assistant"), ("content", .vStr "hello"),
        ("extra", .vNum 3)]) :=
  C10_frame_content_only
    [("role", .vStr "assistant"), ("content", .vStr "hello"), ("extra", .vNum 3)]
    (.vObj [("role", .vStr "assistant"), ("content", .vStr "hello"),
      ("extra", .vNum 3)]) rfl
